import Mathlib

/-!
# Verification of the bor-receipt raw-db module (core/rawdb/bor_receipt.go)

Shallow embedding of the tiered record-lookup subsystem: a mutable
key-value store (leveldb) plus an append-only ancient (freezer) store,
with a reverse lookup index from synthetic transaction hashes to block
numbers.

Bytes are modelled as `List Nat` (each element a byte value), hashes as a
32-byte wrapper, block numbers as `Nat` (the Go `uint64`; truncation to
64 bits is written explicitly where the code performs it).  The external
collaborators (the kv store, the freezer tables, body/canonical-hash/
receipt fetches, the RLP codec and the field-derivation routine) are
fields of a `DB` environment record, following the contracts in the
spec.
-/

namespace BorReceipt

/-- A 32-byte digest (`common.Hash`), carried as its byte list. -/
structure Hash where
  bytes : List Nat
deriving DecidableEq

/-- The all-zero hash `common.Hash{}`. -/
def zeroHash : Hash := ⟨List.replicate 32 0⟩

/-- Embedding of `common.BytesToHash` (via `Hash.SetBytes`): keep the
last 32 bytes and left-pad with zeros to a full 32-byte digest. -/
def bytesToHash (b : List Nat) : Hash :=
  let t := if 32 < b.length then b.drop (b.length - 32) else b
  ⟨List.replicate (32 - t.length) 0 ++ t⟩

/-- A decoded receipt (`types.Receipt` / `types.ReceiptForStorage`);
its internals are irrelevant to this module, so it is opaque data. -/
structure Receipt where
  val : Nat
deriving DecidableEq

/-- A block body; this module only reads `len(body.Transactions)`. -/
structure Body where
  txCount : Nat
deriving DecidableEq

/-- Minimal big-endian byte encoding of a natural number, as produced by
`big.Int.Bytes()`: the empty list for zero, no leading zero bytes
otherwise.  Written with an explicit fuel argument (the number itself
bounds the digit count) so that it is structurally recursive. -/
def natToBytesBEAux : Nat → Nat → List Nat
  | 0, _ => []
  | fuel + 1, n => if n = 0 then [] else natToBytesBEAux fuel (n / 256) ++ [n % 256]

/-- Embedding of `big.NewInt(0).SetUint64(number).Bytes()`. -/
def natToBytesBE (n : Nat) : List Nat := natToBytesBEAux n n

/-- Embedding of `new(big.Int).SetBytes(data)`: big-endian
interpretation of a byte string. -/
def bytesToNat (b : List Nat) : Nat := b.foldl (fun acc d => acc * 256 + d) 0

/-- Embedding of the reverse-index key-space tag from the source:
`borTxLookupPrefix = []byte(borTxLookupPrefixStr)` with
`borTxLookupPrefixStr = "matic-bor-tx-lookup-"` (bor_receipt.go). -/
def borTxLookupPrefixBytes : List Nat := "matic-bor-tx-lookup-".data.map Char.toNat

/-- Modelled from the spec: the fixed namespace tag of the record key
space used by `types.BorReceiptKey` (its definition lives in the
`core/types` package, outside this file's source). -/
def borReceiptPrefixBytes : List Nat := "matic-bor-receipt-".data.map Char.toNat

/-- Fixed-width 8-byte big-endian encoding of a `uint64`, used inside the
record key. -/
def uint64ToBytesBE (n : Nat) : List Nat :=
  let m := n % 2 ^ 64
  [m / 2 ^ 56 % 256, m / 2 ^ 48 % 256, m / 2 ^ 40 % 256, m / 2 ^ 32 % 256,
   m / 2 ^ 24 % 256, m / 2 ^ 16 % 256, m / 2 ^ 8 % 256, m % 256]

/-- Modelled from the spec: `RecordKey(number, hash)`
(`types.BorReceiptKey`, defined outside this file's source): a
deterministic key combining the block number and block hash under a fixed
prefix. -/
def borReceiptKey (number : Nat) (hash : Hash) : List Nat :=
  borReceiptPrefixBytes ++ uint64ToBytesBE number ++ hash.bytes

/-- Modelled from the spec: `SyntheticHash`
(`types.GetDerivedBorTxHash`, defined outside this file's source): a pure
one-way derivation of a 32-byte digest from the record key; the concrete
digest function (a keccak hash) is external, modelled here as any fixed
pure function of the key into a 32-byte hash. -/
def getDerivedBorTxHash (key : List Nat) : Hash := bytesToHash key

/-- Embedding of `borTxLookupKey(hash) = borTxLookupPrefix ++
hash.Bytes()`. -/
def borTxLookupKey (hash : Hash) : List Nat := borTxLookupPrefixBytes ++ hash.bytes

/-- The environment record: the two storage tiers and the external
collaborators the module consumes, per the contracts of the spec.
`kv` is the mutable key-value store (`none` = key absent; `some v` = key
present with value `v`, possibly empty — `db.Has` reports presence while
`db.Get` of an absent key yields empty bytes).  `ancReceipts` and
`ancHashes` are the two freezer tables (`none` = `Ancient` returned an
error, `some b` = success with bytes `b`).  `receiptsOf`, `bodies`,
`canonical` model `ReadRawReceipts`, `ReadBody` and `ReadCanonicalHash`;
`derive` models `types.DeriveFieldsForBorReceipt` (`none` = error, `some
r` = the receipt with derived fields filled in); `decodeSingle`,
`decodeSeq` and `encode` model the RLP codec on receipts. -/
structure DB where
  kv : List Nat → Option (List Nat)
  ancReceipts : Nat → Option (List Nat)
  ancHashes : Nat → Option (List Nat)
  receiptsOf : Hash → Nat → Option (List Receipt)
  bodies : Hash → Nat → Option Body
  canonical : Nat → Hash
  derive : Receipt → Hash → Nat → List Receipt → Option Receipt
  decodeSingle : List Nat → Option Receipt
  decodeSeq : List Nat → Option (List Receipt)
  encode : Receipt → List Nat

/-- Point update of the mutable store. -/
def kvPut (f : List Nat → Option (List Nat)) (k : List Nat) (v : Option (List Nat)) :
    List Nat → Option (List Nat) :=
  fun k' => if k' = k then v else f k'

/-- Embedding of `db.Get(key)`: the bytes returned to the caller; an
absent key (or a store error, which the module always ignores on `Get`)
yields empty bytes. -/
def dbGet (db : DB) (key : List Nat) : List Nat := (db.kv key).getD []

/-- Embedding of `ReadBorTxLookupEntry`: fetch the reverse-index entry at
the lookup key of `txHash`; empty data means absent; otherwise decode the
stored big-endian integer and truncate to `uint64`. -/
def ReadBorTxLookupEntry (db : DB) (txHash : Hash) : Option Nat :=
  let data := dbGet db (borTxLookupKey txHash)
  if data.length = 0 then none
  else some (bytesToNat data % 2 ^ 64)

/-- Embedding of `WriteBorTxLookupEntry`: derive the synthetic tx hash
from the record key and store the minimal big-endian encoding of `number`
at its lookup key. -/
def WriteBorTxLookupEntry (db : DB) (hash : Hash) (number : Nat) : DB :=
  let txHash := getDerivedBorTxHash (borReceiptKey number hash)
  { db with kv := kvPut db.kv (borTxLookupKey txHash) (some (natToBytesBE number)) }

/-- Embedding of `DeleteBorTxLookupEntryByTxHash`: remove the
reverse-index entry at the lookup key of `txHash`. -/
def DeleteBorTxLookupEntryByTxHash (db : DB) (txHash : Hash) : DB :=
  { db with kv := kvPut db.kv (borTxLookupKey txHash) none }

/-- Embedding of `DeleteBorTxLookupEntry`: derive the synthetic tx hash
from the record key and delete by that hash. -/
def DeleteBorTxLookupEntry (db : DB) (hash : Hash) (number : Nat) : DB :=
  let txHash := getDerivedBorTxHash (borReceiptKey number hash)
  DeleteBorTxLookupEntryByTxHash db txHash

/-- One ancient-database probe of `ReadBorReceiptRLP` (the code performs
this probe twice with identical text): read the freezer receipt table at
`number`, ignoring the error; if the data is non-empty, read the freezer
hash table at `number`, ignoring the error, and return the data exactly
when the recorded canonical hash equals `hash`. -/
def ancientProbe (db : DB) (hash : Hash) (number : Nat) : Option (List Nat) :=
  let data := (db.ancReceipts number).getD []
  if 0 < data.length then
    let h := (db.ancHashes number).getD []
    if bytesToHash h = hash then some data else none
  else none

/-- Embedding of `ReadBorReceiptRLP`: probe the ancient store with the
canonical-hash check, then the mutable store at the record key, then the
ancient store a second time identically; `none` models the `nil` return
when all three probes miss. -/
def ReadBorReceiptRLP (db : DB) (hash : Hash) (number : Nat) : Option (List Nat) :=
  match ancientProbe db hash number with
  | some data => some data
  | none =>
    let data := dbGet db (borReceiptKey number hash)
    if 0 < data.length then some data
    else ancientProbe db hash number

/-- Embedding of `HasBorReceipt`: true when the freezer hash table read
succeeds and the recorded canonical hash equals `hash`; otherwise true
exactly when the mutable store has an entry (of any value) at the record
key. -/
def HasBorReceipt (db : DB) (hash : Hash) (number : Nat) : Bool :=
  match db.ancHashes number with
  | some has =>
    if bytesToHash has = hash then true
    else (db.kv (borReceiptKey number hash)).isSome
  | none => (db.kv (borReceiptKey number hash)).isSome

/-- The decoding step of `ReadRawBorReceipt`: try to decode a single
storage receipt; on failure try to decode a receipt sequence; a failed
sequence decode or a sequence of length other than one is an error
(`none`), otherwise the sole element is returned. -/
def decodeBorReceipt (db : DB) (data : List Nat) : Option Receipt :=
  match db.decodeSingle data with
  | some storageReceipt => some storageReceipt
  | none =>
    match db.decodeSeq data with
    | none => none
    | some storageReceipts =>
      if storageReceipts.length ≠ 1 then none
      else storageReceipts.head?

/-- Embedding of `ReadRawBorReceipt`: fetch the raw RLP bytes through the
tiered reader, return `none` on a miss or empty data, else decode. -/
def ReadRawBorReceipt (db : DB) (hash : Hash) (number : Nat) : Option Receipt :=
  match ReadBorReceiptRLP db hash number with
  | none => none
  | some data =>
    if data.length = 0 then none
    else decodeBorReceipt db data

/-- Embedding of `ReadBorReceipt`: the enriched read; fails (returning
`none`) when the raw receipt is unreadable, the sibling receipt set is
absent, the block body is absent, or field derivation reports an error;
otherwise returns the receipt with derived fields. -/
def ReadBorReceipt (db : DB) (hash : Hash) (number : Nat) : Option Receipt :=
  match ReadRawBorReceipt db hash number with
  | none => none
  | some borReceipt =>
    match db.receiptsOf hash number with
    | none => none
    | some receipts =>
      match db.bodies hash number with
      | none => none
      | some _ => db.derive borReceipt hash number receipts

/-- Embedding of `WriteBorReceipt`: serialize the receipt (via the
external RLP encoder) and store the bytes at the record key in the
mutable tier.  Encoding and storage failures are `log.Crit`
(process-fatal) in the source, so the successful path is the only one
modelled. -/
def WriteBorReceipt (db : DB) (hash : Hash) (number : Nat) (borReceipt : Receipt) : DB :=
  let bytes := db.encode borReceipt
  { db with kv := kvPut db.kv (borReceiptKey number hash) (some bytes) }

/-- Embedding of `DeleteBorReceipt`: remove the mutable-tier entry at the
record key.  A storage failure is `log.Crit` in the source, so the
successful path is the only one modelled. -/
def DeleteBorReceipt (db : DB) (hash : Hash) (number : Nat) : DB :=
  { db with kv := kvPut db.kv (borReceiptKey number hash) none }

/-- Embedding of `ReadBorTransaction`: resolve a synthetic tx hash
through the reverse index, then the canonical-hash index, then the block
body; any miss yields the absent quadruple `(nil, common.Hash{}, 0, 0)`;
on success the (fake) bor transaction is returned with its block hash,
block number and position (the body's transaction count). -/
def ReadBorTransaction (db : DB) (hash : Hash) : Option Unit × Hash × Nat × Nat :=
  match ReadBorTxLookupEntry db hash with
  | none => (none, zeroHash, 0, 0)
  | some blockNumber =>
    let blockHash := db.canonical blockNumber
    if blockHash = zeroHash then (none, zeroHash, 0, 0)
    else
      match db.bodies blockHash blockNumber with
      | none => (none, zeroHash, 0, 0)
      | some body => (some (), blockHash, blockNumber, body.txCount)

/-- The existence check as the spec words it: the ancient store's
recorded hash for `number` equals `hash`, or the mutable store has a
non-empty value at the record key. -/
def specHasBorReceipt (db : DB) (hash : Hash) (number : Nat) : Bool :=
  (match db.ancHashes number with
   | some has => decide (bytesToHash has = hash)
   | none => false) ||
  decide (dbGet db (borReceiptKey number hash) ≠ [])

/-! ## Concrete environments for witnesses and counterexamples -/

/-- An environment with both tiers empty and all collaborators trivial. -/
def dbEmpty : DB where
  kv := fun _ => none
  ancReceipts := fun _ => none
  ancHashes := fun _ => none
  receiptsOf := fun _ _ => none
  bodies := fun _ _ => none
  canonical := fun _ => zeroHash
  derive := fun r _ _ _ => some r
  decodeSingle := fun _ => none
  decodeSeq := fun _ => none
  encode := fun _ => []

/-- A state whose ancient tier holds receipt bytes for block 5 under
recorded canonical hash built from `[7]`, with an empty mutable tier. -/
def dbAncientMismatch : DB :=
  { dbEmpty with
    ancReceipts := fun n => if n = 5 then some [1, 2, 3] else none
    ancHashes := fun n => if n = 5 then some [7] else none }

/-- An empty-tier environment whose receipt encoder is a fixed injective
non-empty encoding. -/
def dbWithEncoder : DB :=
  { dbEmpty with encode := fun r => [201, r.val] }

/-- An environment whose sequence decoder yields a one-element sequence
on the byte string `[0]` and an empty sequence on anything else, with an
always-failing single-record decoder. -/
def dbSeqDecoder : DB :=
  { dbEmpty with decodeSeq := fun d => if d = [0] then some [⟨4⟩] else some [] }

/-- A state whose mutable tier holds an entry with an empty value at the
record key of block 7 under the zero hash, and no ancient data. -/
def dbEmptyValueEntry : DB :=
  { dbEmpty with kv := fun k => if k = borReceiptKey 7 zeroHash then some [] else none }

/-- An environment holding raw receipt bytes `[10]` for block 3 under
the zero hash, together with trivial decode, sibling-set, body and
derivation collaborators. -/
def dbEnrich : DB :=
  { dbEmpty with
    kv := fun k => if k = borReceiptKey 3 zeroHash then some [10] else none
    decodeSingle := fun d => if d = [10] then some ⟨1⟩ else none
    receiptsOf := fun _ _ => some []
    bodies := fun _ _ => some ⟨2⟩ }

/-- A state whose ancient hash table records the zero hash for block 5
while the ancient receipt table and the mutable tier are empty. -/
def dbHashOnlyAncient : DB :=
  { dbEmpty with ancHashes := fun n => if n = 5 then some (List.replicate 32 0) else none }

/-- A state whose mutable tier holds an entry with an empty value at the
record key of block 4 under the zero hash. -/
def dbEmptyValueEntry4 : DB :=
  { dbEmpty with kv := fun k => if k = borReceiptKey 4 zeroHash then some [] else none }

/-! ## Properties of the big-endian integer codec -/

theorem bytesToNat_append (l : List Nat) (d : Nat) :
    bytesToNat (l ++ [d]) = bytesToNat l * 256 + d := by
  unfold bytesToNat
  rw [List.foldl_append]
  rfl

theorem natToBytesBEAux_zero (fuel : Nat) : natToBytesBEAux fuel 0 = [] := by
  cases fuel <;> simp [natToBytesBEAux]

theorem bytesToNat_natToBytesBEAux :
    ∀ fuel n : Nat, n ≤ fuel → bytesToNat (natToBytesBEAux fuel n) = n := by
  intro fuel
  induction fuel with
  | zero =>
    intro n hn
    have : n = 0 := Nat.le_zero.mp hn
    subst this
    simp [natToBytesBEAux, bytesToNat]
  | succ f ih =>
    intro n hn
    by_cases h0 : n = 0
    · subst h0
      simp [natToBytesBEAux, bytesToNat]
    · have hlt : n / 256 < n := Nat.div_lt_self (Nat.pos_of_ne_zero h0) (by norm_num)
      have hdiv : n / 256 ≤ f := by omega
      show bytesToNat (if n = 0 then [] else natToBytesBEAux f (n / 256) ++ [n % 256]) = n
      rw [if_neg h0, bytesToNat_append, ih _ hdiv]
      omega

/-- Decoding the minimal big-endian bytes of `n` gives back `n`. -/
theorem bytesToNat_natToBytesBE (n : Nat) : bytesToNat (natToBytesBE n) = n :=
  bytesToNat_natToBytesBEAux n n le_rfl

/-- The minimal big-endian encoding of a nonzero number is non-empty. -/
theorem natToBytesBE_ne_nil (n : Nat) (h : n ≠ 0) : natToBytesBE n ≠ [] := by
  cases n with
  | zero => exact absurd rfl h
  | succ m =>
    show (if m + 1 = 0 then [] else natToBytesBEAux m ((m + 1) / 256) ++ [(m + 1) % 256]) ≠ []
    simp

/-- The minimal big-endian encoding of zero is the empty byte string:
this is what `big.NewInt(0).SetUint64(0).Bytes()` produces. -/
theorem natToBytesBE_zero : natToBytesBE 0 = [] := rfl

/-- When the first ancient probe misses, the reader's result is the
mutable-store probe (the third probe being the identical miss). -/
theorem readRLP_of_ancientProbe_none (db : DB) (hash : Hash) (number : Nat)
    (hap : ancientProbe db hash number = none) :
    ReadBorReceiptRLP db hash number =
      (if 0 < (dbGet db (borReceiptKey number hash)).length
       then some (dbGet db (borReceiptKey number hash)) else none) := by
  by_cases hkv : 0 < (dbGet db (borReceiptKey number hash)).length <;>
    simp [ReadBorReceiptRLP, hap, hkv]

/-! ## C1: reverse-index put/get round trip -/

/-- C1 (amended): for every nonzero `uint64` number, after
`WriteBorTxLookupEntry(hash, number)`, `ReadBorTxLookupEntry` on the
synthetic hash derived from `(number, hash)` returns that same number.
(For `number = 0` the claim fails: see the counterexample.) -/
theorem borIndex_put_get_roundtrip (db : DB) (hash : Hash) (number : Nat)
    (h0 : 0 < number) (h64 : number < 2 ^ 64) :
    ReadBorTxLookupEntry (WriteBorTxLookupEntry db hash number)
      (getDerivedBorTxHash (borReceiptKey number hash)) = some number := by
  have hne : natToBytesBE number ≠ [] := natToBytesBE_ne_nil number (by omega)
  simp [ReadBorTxLookupEntry, WriteBorTxLookupEntry, dbGet, kvPut,
    List.length_eq_zero, hne, bytesToNat_natToBytesBE]
  omega

/-- C1 counterexample: for `number = 0`, `WriteBorTxLookupEntry` stores
the empty big-endian encoding, so the subsequent `ReadBorTxLookupEntry`
on the synthetic hash reports absent instead of `some 0`. -/
theorem borIndex_put_get_zero_counterexample :
    ReadBorTxLookupEntry (WriteBorTxLookupEntry dbEmpty zeroHash 0)
      (getDerivedBorTxHash (borReceiptKey 0 zeroHash)) = none := by
  decide

/-- Witness for the amended C1 at `number = 3`. -/
theorem borIndex_put_get_roundtrip_witness :
    ReadBorTxLookupEntry (WriteBorTxLookupEntry dbEmpty zeroHash 3)
      (getDerivedBorTxHash (borReceiptKey 3 zeroHash)) = some 3 :=
  borIndex_put_get_roundtrip dbEmpty zeroHash 3 (by decide) (by norm_num)

/-! ## C2 and C3: the tiered reader -/

/-- C2: if the ancient receipt table holds non-empty bytes for `number`
but the recorded canonical hash for `number` differs from the queried
`hash`, `ReadBorReceiptRLP` never returns the ancient bytes: the result
is exactly the mutable-store probe at the record key, the second ancient
probe missing for the same reason. -/
theorem readRLP_mismatched_ancient_falls_through (db : DB) (hash : Hash) (number : Nat)
    (d hb : List Nat)
    (hd : db.ancReceipts number = some d) (hdne : d ≠ [])
    (hh : db.ancHashes number = some hb)
    (hmis : bytesToHash hb ≠ hash) :
    ReadBorReceiptRLP db hash number =
      (if 0 < (dbGet db (borReceiptKey number hash)).length
       then some (dbGet db (borReceiptKey number hash)) else none) := by
  have hpos : 0 < d.length := List.length_pos.mpr hdne
  have hap : ancientProbe db hash number = none := by
    simp [ancientProbe, hd, hh, hpos, hmis]
  by_cases hkv : 0 < (dbGet db (borReceiptKey number hash)).length <;>
    simp [ReadBorReceiptRLP, hap, hkv]

/-- Witness for C2: querying block 5 with a hash different from the
recorded one falls through and, the mutable tier being empty, misses. -/
theorem readRLP_mismatched_ancient_falls_through_witness :
    ReadBorReceiptRLP dbAncientMismatch (bytesToHash [9]) 5 =
      (if 0 < (dbGet dbAncientMismatch (borReceiptKey 5 (bytesToHash [9]))).length
       then some (dbGet dbAncientMismatch (borReceiptKey 5 (bytesToHash [9]))) else none) :=
  readRLP_mismatched_ancient_falls_through dbAncientMismatch (bytesToHash [9]) 5
    [1, 2, 3] [7] (by decide) (by decide) (by decide) (by decide)

/-- C3: `ReadBorReceiptRLP` is exactly the probe sequence
ancient-with-hash-check, then mutable store at the record key, then the
identical ancient probe again; and when all three probes miss it reports
absent (`none`), never an error. -/
theorem readRLP_probe_sequence (db : DB) (hash : Hash) (number : Nat)
    (hanc : ancientProbe db hash number = none)
    (hkv : dbGet db (borReceiptKey number hash) = []) :
    ReadBorReceiptRLP db hash number = none ∧
    ∀ (db' : DB) (h' : Hash) (n' : Nat),
      ReadBorReceiptRLP db' h' n' =
        match ancientProbe db' h' n' with
        | some data => some data
        | none =>
          if 0 < (dbGet db' (borReceiptKey n' h')).length
          then some (dbGet db' (borReceiptKey n' h'))
          else ancientProbe db' h' n' := by
  constructor
  · simp [ReadBorReceiptRLP, hanc, hkv]
  · intro db' h' n'
    rfl

/-- Witness for C3: in the empty environment all three probes miss and
the reader reports absent. -/
theorem readRLP_probe_sequence_witness :
    ReadBorReceiptRLP dbEmpty zeroHash 0 = none :=
  (readRLP_probe_sequence dbEmpty zeroHash 0 (by decide) (by decide)).1

/-! ## C4: write / fetch / delete round trip on the mutable tier -/

/-- C4: in a state with no ancient-tier receipt data, after
`WriteBorReceipt(hash, number, r)` the tiered reader returns exactly the
serialized bytes that were written, and after a subsequent
`DeleteBorReceipt(hash, number)` it reports absent.  The hypothesis that
the encoding is non-empty reflects the external RLP encoder, which never
produces empty bytes for a receipt struct. -/
theorem writeBorReceipt_fetch_delete (db : DB) (hash : Hash) (number : Nat) (r : Receipt)
    (hanc : ∀ m, db.ancReceipts m = none)
    (henc : db.encode r ≠ []) :
    ReadBorReceiptRLP (WriteBorReceipt db hash number r) hash number =
      some (db.encode r) ∧
    ReadBorReceiptRLP (DeleteBorReceipt (WriteBorReceipt db hash number r) hash number)
      hash number = none := by
  have hpos : 0 < (db.encode r).length := List.length_pos.mpr henc
  have h1 : ancientProbe (WriteBorReceipt db hash number r) hash number = none := by
    simp [ancientProbe, WriteBorReceipt, hanc]
  have h2 : ancientProbe (DeleteBorReceipt (WriteBorReceipt db hash number r) hash number)
      hash number = none := by
    simp [ancientProbe, DeleteBorReceipt, WriteBorReceipt, hanc]
  constructor
  · rw [readRLP_of_ancientProbe_none _ _ _ h1]
    simp [WriteBorReceipt, dbGet, kvPut, hpos]
  · rw [readRLP_of_ancientProbe_none _ _ _ h2]
    simp [DeleteBorReceipt, WriteBorReceipt, dbGet, kvPut]

/-- Witness for C4 at block 9 with the zero hash. -/
theorem writeBorReceipt_fetch_delete_witness :
    ReadBorReceiptRLP (WriteBorReceipt dbWithEncoder zeroHash 9 ⟨0⟩) zeroHash 9 =
      some (dbWithEncoder.encode ⟨0⟩) ∧
    ReadBorReceiptRLP (DeleteBorReceipt (WriteBorReceipt dbWithEncoder zeroHash 9 ⟨0⟩)
      zeroHash 9) zeroHash 9 = none :=
  writeBorReceipt_fetch_delete dbWithEncoder zeroHash 9 ⟨0⟩ (fun _ => rfl) (by decide)

/-! ## C5: the dual-shape receipt decoder -/

/-- C5: the decoding step first attempts single-record decoding and
returns its result on success; on failure it attempts sequence decoding,
returning the sole element of a one-element sequence, reporting absence
for a sequence of any other length (invalid-length error), and reporting
absence when both decode attempts fail (malformed-encoding error). -/
theorem decodeBorReceipt_dual_shape (db : DB) (data : List Nat) :
    (∀ r, db.decodeSingle data = some r → decodeBorReceipt db data = some r) ∧
    (db.decodeSingle data = none →
      (∀ r, db.decodeSeq data = some [r] → decodeBorReceipt db data = some r) ∧
      (∀ rs, db.decodeSeq data = some rs → rs.length ≠ 1 →
        decodeBorReceipt db data = none) ∧
      (db.decodeSeq data = none → decodeBorReceipt db data = none)) := by
  refine ⟨fun r hr => by simp [decodeBorReceipt, hr], fun hs => ⟨?_, ?_, ?_⟩⟩
  · intro r hr
    simp [decodeBorReceipt, hs, hr]
  · intro rs hrs hlen
    simp [decodeBorReceipt, hs, hrs, hlen]
  · intro hn
    simp [decodeBorReceipt, hs, hn]

/-- Witness for C5: the one-element sequence is unwrapped; the
zero-element sequence is an invalid-length error. -/
theorem decodeBorReceipt_dual_shape_witness :
    decodeBorReceipt dbSeqDecoder [0] = some ⟨4⟩ ∧
    decodeBorReceipt dbSeqDecoder [1] = none :=
  ⟨((decodeBorReceipt_dual_shape dbSeqDecoder [0]).2 rfl).1 ⟨4⟩ (by decide),
   ((decodeBorReceipt_dual_shape dbSeqDecoder [1]).2 rfl).2.1 [] (by decide) (by decide)⟩

/-! ## C6: the existence check -/

/-- C6 counterexample: `HasBorReceipt` uses `db.Has` (key presence), not
value non-emptiness, so on a state holding an empty value at the record
key it answers true while the spec's wording answers false. -/
theorem hasBorReceipt_empty_value_counterexample :
    HasBorReceipt dbEmptyValueEntry zeroHash 7 = true ∧
    specHasBorReceipt dbEmptyValueEntry zeroHash 7 = false := by
  decide

/-- C6 (amended): `HasBorReceipt` returns true if and only if the
ancient store's recorded canonical hash for `number` equals `hash`, or
the mutable store has an entry (of any value, including the empty one) at
the record key. -/
theorem hasBorReceipt_characterization (db : DB) (hash : Hash) (number : Nat) :
    HasBorReceipt db hash number =
      ((match db.ancHashes number with
        | some has => decide (bytesToHash has = hash)
        | none => false) || (db.kv (borReceiptKey number hash)).isSome) := by
  unfold HasBorReceipt
  cases db.ancHashes number with
  | none => simp
  | some has => by_cases h : bytesToHash has = hash <;> simp [h]

/-! ## C7: the enriched read -/

/-- C7: when the raw receipt is readable, `ReadBorReceipt` returns
absent, without retry, whenever the sibling receipt set is absent, the
block body is absent, or field derivation reports an error; when all are
available it returns the derived (enriched) receipt. -/
theorem readBorReceipt_enrichment (db : DB) (hash : Hash) (number : Nat) (r : Receipt)
    (hraw : ReadRawBorReceipt db hash number = some r) :
    (db.receiptsOf hash number = none → ReadBorReceipt db hash number = none) ∧
    (db.bodies hash number = none → ReadBorReceipt db hash number = none) ∧
    (∀ rs, db.receiptsOf hash number = some rs → db.derive r hash number rs = none →
      ReadBorReceipt db hash number = none) ∧
    (∀ rs b, db.receiptsOf hash number = some rs → db.bodies hash number = some b →
      ReadBorReceipt db hash number = db.derive r hash number rs) := by
  refine ⟨fun hrs => by simp [ReadBorReceipt, hraw, hrs], fun hb => ?_, ?_, ?_⟩
  · cases hrs : db.receiptsOf hash number <;>
      simp [ReadBorReceipt, hraw, hrs, hb]
  · intro rs hrs hder
    cases hb : db.bodies hash number <;>
      simp [ReadBorReceipt, hraw, hrs, hb, hder]
  · intro rs b hrs hb
    simp [ReadBorReceipt, hraw, hrs, hb]

/-- Witness for C7: with every collaborator available, the enriched read
returns the derived receipt. -/
theorem readBorReceipt_enrichment_witness :
    ReadBorReceipt dbEnrich zeroHash 3 = dbEnrich.derive ⟨1⟩ zeroHash 3 [] :=
  (readBorReceipt_enrichment dbEnrich zeroHash 3 ⟨1⟩ (by decide)).2.2.2 [] ⟨2⟩ rfl rfl

/-! ## C8: reverse-index delete -/

/-- C8: after `DeleteBorTxLookupEntry(hash, number)` (or a delete by the
synthetic tx hash itself), `ReadBorTxLookupEntry` on the synthetic hash
derived from `(number, hash)` returns absent; the keyed deleter is
literally the by-hash deleter at the synthetic hash derived from the
record key, and deleting after `WriteBorTxLookupEntry(hash, number)`
touches no key other than the one the writer created. -/
theorem borIndex_delete_get_absent (db : DB) (hash : Hash) (number : Nat) (txHash : Hash) :
    ReadBorTxLookupEntry (DeleteBorTxLookupEntry db hash number)
      (getDerivedBorTxHash (borReceiptKey number hash)) = none ∧
    ReadBorTxLookupEntry (DeleteBorTxLookupEntryByTxHash db txHash) txHash = none ∧
    DeleteBorTxLookupEntry db hash number =
      DeleteBorTxLookupEntryByTxHash db (getDerivedBorTxHash (borReceiptKey number hash)) ∧
    ∀ k, k ≠ borTxLookupKey (getDerivedBorTxHash (borReceiptKey number hash)) →
      (DeleteBorTxLookupEntry (WriteBorTxLookupEntry db hash number) hash number).kv k =
        db.kv k := by
  refine ⟨?_, ?_, rfl, ?_⟩
  · simp [ReadBorTxLookupEntry, DeleteBorTxLookupEntry, DeleteBorTxLookupEntryByTxHash,
      dbGet, kvPut]
  · simp [ReadBorTxLookupEntry, DeleteBorTxLookupEntryByTxHash, dbGet, kvPut]
  · intro k hk
    simp [DeleteBorTxLookupEntry, DeleteBorTxLookupEntryByTxHash, WriteBorTxLookupEntry,
      kvPut, hk]

/-- Witness for C8 at block 2 with the zero hash: the deleted entry reads
absent and an unrelated key (the empty key) is untouched by a
write-then-delete pair. -/
theorem borIndex_delete_get_absent_witness :
    ReadBorTxLookupEntry (DeleteBorTxLookupEntry dbEmpty zeroHash 2)
      (getDerivedBorTxHash (borReceiptKey 2 zeroHash)) = none ∧
    (DeleteBorTxLookupEntry (WriteBorTxLookupEntry dbEmpty zeroHash 2) zeroHash 2).kv [] =
      dbEmpty.kv [] :=
  ⟨(borIndex_delete_get_absent dbEmpty zeroHash 2 zeroHash).1,
   (borIndex_delete_get_absent dbEmpty zeroHash 2 zeroHash).2.2.2 [] (by decide)⟩

/-! ## C9: the existence check can disagree with the fetch -/

/-- C9: there are states and queries where `HasBorReceipt` answers true
while `ReadBorReceiptRLP` reports absent: an ancient hash-table entry
with no ancient receipt bytes, and a mutable-tier entry whose value is
empty (`Has` sees the key, the fetch treats empty bytes as a miss). -/
theorem hasBorReceipt_readRLP_disagree :
    HasBorReceipt dbHashOnlyAncient zeroHash 5 = true ∧
    ReadBorReceiptRLP dbHashOnlyAncient zeroHash 5 = none ∧
    HasBorReceipt dbEmptyValueEntry4 zeroHash 4 = true ∧
    ReadBorReceiptRLP dbEmptyValueEntry4 zeroHash 4 = none := by
  decide

/-! ## C10: transaction lookup by synthetic hash -/

/-- C10: `ReadBorTransaction` returns the absent quadruple whenever the
reverse-index entry is missing, the canonical hash for the indexed number
is the zero hash, or the body for that canonical hash and number is
absent; and it never returns a present transaction paired with a zero
block hash. -/
theorem readBorTransaction_absent (db : DB) (hash : Hash) :
    (ReadBorTxLookupEntry db hash = none →
      ReadBorTransaction db hash = (none, zeroHash, 0, 0)) ∧
    (∀ n, ReadBorTxLookupEntry db hash = some n → db.canonical n = zeroHash →
      ReadBorTransaction db hash = (none, zeroHash, 0, 0)) ∧
    (∀ n, ReadBorTxLookupEntry db hash = some n →
      db.bodies (db.canonical n) n = none →
      ReadBorTransaction db hash = (none, zeroHash, 0, 0)) ∧
    ((ReadBorTransaction db hash).1.isSome → (ReadBorTransaction db hash).2.1 ≠ zeroHash) := by
  refine ⟨fun hn => by simp [ReadBorTransaction, hn], ?_, ?_, ?_⟩
  · intro n hn hc
    simp [ReadBorTransaction, hn, hc]
  · intro n hn hb
    by_cases hc : db.canonical n = zeroHash <;>
      simp [ReadBorTransaction, hn, hc, hb]
  · intro hsome
    unfold ReadBorTransaction at *
    cases hn : ReadBorTxLookupEntry db hash with
    | none => simp [hn] at hsome
    | some n =>
      by_cases hc : db.canonical n = zeroHash
      · simp [hn, hc] at hsome
      · cases hb : db.bodies (db.canonical n) n with
        | none => simp [hn, hc, hb] at hsome
        | some b => simp [hn, hc, hb]

/-- Witness for C10: in the empty environment the reverse index misses
and the lookup reports the absent quadruple. -/
theorem readBorTransaction_absent_witness :
    ReadBorTransaction dbEmpty zeroHash = (none, zeroHash, 0, 0) :=
  (readBorTransaction_absent dbEmpty zeroHash).1 (by decide)

end BorReceipt
